import Mathlib

/-!
Shallow embedding of the RedDoor content model: slug generation
(CreateCity.tsx / CreateChannel.tsx), creation flows, feed and comment
ordering (PostList.tsx), post/comment creation (CreatePost.tsx,
PostList.tsx) and the vote aggregation contract.  Strings are modelled
as lists of characters.
-/

namespace RedDoor

/-- Characters matched by the JavaScript regex class `\s`. -/
def jsWhitespace (c : Char) : Bool :=
  c = ' ' || c = '\t' || c = '\n' || c.toNat = 11 || c.toNat = 12 || c = '\r' ||
  c.toNat = 0xa0 || c.toNat = 0x1680 || (0x2000 ≤ c.toNat && c.toNat ≤ 0x200a) ||
  c.toNat = 0x2028 || c.toNat = 0x2029 || c.toNat = 0x202f ||
  c.toNat = 0x205f || c.toNat = 0x3000 || c.toNat = 0xfeff

/-- JavaScript `toLowerCase` restricted to the ASCII range used by the slugs. -/
def jsToLower (c : Char) : Char :=
  if 'A' ≤ c && c ≤ 'Z' then Char.ofNat (c.toNat + 32) else c

/-- Membership in the character class `[a-z0-9\s-]` kept by the first replace. -/
def slugKeep (c : Char) : Bool :=
  ('a' ≤ c && c ≤ 'z') || ('0' ≤ c && c ≤ '9') || jsWhitespace c || c = '-'

/-- Worker for `collapseRuns`: `inRun` records whether the previous
character was part of a run already replaced by `r`. -/
def collapseRunsAux (p : Char → Bool) (r : Char) : Bool → List Char → List Char
  | _, [] => []
  | inRun, c :: cs =>
    if p c then
      if inRun then collapseRunsAux p r true cs
      else r :: collapseRunsAux p r true cs
    else c :: collapseRunsAux p r false cs

/-- `replace(/p+/g, r)` for a character class `p`: each maximal run of
characters satisfying `p` becomes the single character `r`. -/
def collapseRuns (p : Char → Bool) (r : Char) (l : List Char) : List Char :=
  collapseRunsAux p r false l

/-- JavaScript `String.prototype.trim`: strip whitespace from both ends. -/
def jsTrim (l : List Char) : List Char :=
  ((l.dropWhile jsWhitespace).reverse.dropWhile jsWhitespace).reverse

/-- `generateSlug` from CreateCity.tsx lines 30-37 and CreateChannel.tsx
lines 75-82: lowercase, strip `[^a-z0-9\s-]`, replace `\s+` with `-`,
replace `-+` with `-`, then `trim()` (which strips whitespace only). -/
def generateSlug (name : List Char) : List Char :=
  jsTrim (collapseRuns (fun c => c = '-') '-'
    (collapseRuns jsWhitespace '-' ((name.map jsToLower).filter slugKeep)))

/-- Strip the character `'-'` from both ends of a list. -/
def trimHyphens (l : List Char) : List Char :=
  ((l.dropWhile (fun c => c = '-')).reverse.dropWhile (fun c => c = '-')).reverse

/-- Modelled from the spec (section 4.1 transformation): lowercase, strip
characters outside `[a-z0-9\s-]`, collapse whitespace runs to `-`,
collapse repeated `-`, then remove leading and trailing `-`.  This is the
spec's reading of the final `trim()`; it is compared against
`generateSlug`, which embeds the source. -/
def slugSpec (name : List Char) : List Char :=
  trimHyphens (collapseRuns (fun c => c = '-') '-'
    (collapseRuns jsWhitespace '-' ((name.map jsToLower).filter slugKeep)))

/-- The slug pipeline of the source with the final `trim()` step omitted. -/
def slugUntrimmed (name : List Char) : List Char :=
  collapseRuns (fun c => c = '-') '-'
    (collapseRuns jsWhitespace '-' ((name.map jsToLower).filter slugKeep))

/-- Characters that may appear in a generated slug. -/
def slugChar (c : Char) : Bool :=
  ('a' ≤ c && c ≤ 'z') || ('0' ≤ c && c ≤ '9') || c = '-'

/-- No two adjacent characters of the list both satisfy `p`. -/
def noAdj (p : Char → Bool) : List Char → Bool
  | a :: b :: rest => (!(p a && p b)) && noAdj p (b :: rest)
  | _ => true

/-- A Location row, as created by CreateCity.tsx. -/
structure LocationRec where
  id : Nat
  name : List Char
  slug : List Char
  state : List Char
  country : List Char
  isActive : Bool
deriving DecidableEq

/-- A Channel row, as created by CreateChannel.tsx. -/
structure ChannelRec where
  id : Nat
  locationId : Nat
  name : List Char
  slug : List Char
  isActive : Bool
  memberCount : Int
  postCount : Int
  createdBy : Nat
deriving DecidableEq

/-- The Post `type` enum of the Amplify schema. -/
inductive PostType
  | text
  | image
  | link
deriving DecidableEq

/-- The `postType` state of CreatePost.tsx, typed `"text" | "link"`. -/
inductive NewPostType
  | text
  | link
deriving DecidableEq

def NewPostType.toPostType : NewPostType → PostType
  | NewPostType.text => PostType.text
  | NewPostType.link => PostType.link

/-- A Post row with the fields used by CreatePost.tsx and PostList.tsx. -/
structure PostRec where
  id : Nat
  locationId : Nat
  channelId : Nat
  authorId : Nat
  title : List Char
  ptype : PostType
  content : Option (List Char)
  linkUrl : Option (List Char)
  isActive : Bool
  upvotes : Int
  downvotes : Int
  score : Int
  commentCount : Int
  createdAt : Int
deriving DecidableEq

/-- A Comment row with the fields used by PostList.tsx. -/
structure CommentRec where
  id : Nat
  postId : Nat
  authorId : Nat
  parentCommentId : Option Nat
  content : List Char
  isActive : Bool
  upvotes : Int
  downvotes : Int
  score : Int
  createdAt : Int
deriving DecidableEq

/-- The entity store behind the generated CRUD client. -/
structure Store where
  locations : List LocationRec
  channels : List ChannelRec
  posts : List PostRec
  comments : List CommentRec
deriving DecidableEq

deriving instance DecidableEq for Except

/-- The failure modes of the creation flows, named after the spec's error
kinds where the spec names them. -/
inductive CreateError
  | NameRequired
  | StateRequired
  | LocationMissing
  | DuplicateSlug
  | TitleRequired
  | ContentRequired
  | LinkUrlRequired
  | ChannelRequired
deriving DecidableEq

/-- The form state of CreateCity.tsx. -/
structure CityForm where
  name : List Char
  state : List Char
  country : List Char
  description : List Char
deriving DecidableEq

/-- `handleSubmit` of CreateCity.tsx lines 43-101: require a nonblank name
and state, generate the slug, reject when any existing Location (globally)
has the same slug, otherwise create the Location. -/
def createCity (form : CityForm) (newId : Nat) (st : Store) :
    Except CreateError Store :=
  if jsTrim form.name = [] then Except.error CreateError.NameRequired
  else if jsTrim form.state = [] then Except.error CreateError.StateRequired
  else
    if 0 < (st.locations.filter
        (fun l => decide (l.slug = generateSlug form.name))).length then
      Except.error CreateError.DuplicateSlug
    else
      Except.ok { st with locations := st.locations ++
        [{ id := newId, name := jsTrim form.name,
           slug := generateSlug form.name, state := jsTrim form.state,
           country := jsTrim form.country, isActive := true }] }

/-- The form state of CreateChannel.tsx (fields used by the model). -/
structure ChannelForm where
  name : List Char
  description : List Char
deriving DecidableEq

/-- `handleSubmit` of CreateChannel.tsx lines 88-148: require a nonblank
name and a resolved Location, generate the slug, reject when an existing
Channel in the same Location has the same slug, otherwise create the
Channel with zeroed counters. -/
def createChannel (form : ChannelForm) (loc : Option LocationRec)
    (userId : Nat) (newId : Nat) (st : Store) : Except CreateError Store :=
  if jsTrim form.name = [] then Except.error CreateError.NameRequired
  else
    match loc with
    | none => Except.error CreateError.LocationMissing
    | some location =>
      if 0 < (st.channels.filter (fun c =>
          decide (c.slug = generateSlug form.name) &&
          decide (c.locationId = location.id))).length then
        Except.error CreateError.DuplicateSlug
      else
        Except.ok { st with channels := st.channels ++
          [{ id := newId, locationId := location.id,
             name := jsTrim form.name, slug := generateSlug form.name,
             isActive := true, memberCount := 0, postCount := 0,
             createdBy := userId }] }

/-- The Location "Ann Arbor" of the spec's scenario. -/
def annArbor : LocationRec :=
  { id := 1, name := "Ann Arbor".data, slug := "ann-arbor".data,
    state := "Michigan".data, country := "United States".data,
    isActive := true }

/-- A second Location, giving a different slug scope for Channels. -/
def chicago : LocationRec :=
  { id := 2, name := "Chicago".data, slug := "chicago".data,
    state := "Illinois".data, country := "United States".data,
    isActive := true }

/-- The Channel "Politics" under Ann Arbor of the spec's scenario. -/
def politicsChannel : ChannelRec :=
  { id := 3, locationId := 1, name := "Politics".data,
    slug := "politics".data, isActive := true, memberCount := 0,
    postCount := 0, createdBy := 4 }

/-- Store holding two Locations and one Channel, for the scenario. -/
def scenarioStore : Store :=
  { locations := [annArbor, chicago], channels := [politicsChannel],
    posts := [], comments := [] }

/-- Channel form whose name generates the slug "politics". -/
def politicsForm : ChannelForm :=
  { name := "Politics".data, description := [] }

/-- City form whose name generates the already-taken slug "ann-arbor". -/
def annArborForm : CityForm :=
  { name := "Ann Arbor".data, state := "Michigan".data,
    country := "United States".data, description := [] }

/-- City form whose all-punctuation name generates an empty slug. -/
def bangForm : CityForm :=
  { name := "!!!".data, state := "CA".data,
    country := "United States".data, description := [] }

/-- A store with no rows at all. -/
def emptyStore : Store :=
  { locations := [], channels := [], posts := [], comments := [] }

/-- The `fetchPosts` comparator (PostList.tsx lines 157-164): score
descending, ties broken by createdAt descending (newest first). -/
def postCmp (a b : PostRec) : Int :=
  if a.score ≠ b.score then b.score - a.score else b.createdAt - a.createdAt

/-- `a` sorts no later than `b` under the `fetchPosts` comparator. -/
def postBefore (a b : PostRec) : Prop := postCmp a b ≤ 0

instance : DecidableRel postBefore :=
  fun a b => inferInstanceAs (Decidable (postCmp a b ≤ 0))

instance : IsTotal PostRec postBefore :=
  ⟨fun a b => by
    unfold postBefore postCmp
    rcases eq_or_ne a.score b.score with h | h
    · rw [if_neg (by simp [h]), if_neg (by simp [h.symm])]
      omega
    · rw [if_pos h, if_pos (Ne.symm h)]
      omega⟩

instance : IsTrans PostRec postBefore :=
  ⟨fun a b c h1 h2 => by
    unfold postBefore postCmp at h1 h2 ⊢
    by_cases hab : a.score = b.score <;> by_cases hbc : b.score = c.score
    · rw [if_neg (by simp [hab])] at h1
      rw [if_neg (by simp [hbc])] at h2
      rw [if_neg (by simp [hab, hbc])]
      omega
    · rw [if_neg (by simp [hab])] at h1
      rw [if_pos hbc] at h2
      rw [if_pos (hab ▸ hbc)]
      omega
    · rw [if_pos hab] at h1
      rw [if_neg (by simp [hbc])] at h2
      rw [if_pos (hbc ▸ hab)]
      omega
    · rw [if_pos hab] at h1
      rw [if_pos hbc] at h2
      rw [if_pos (by intro h; omega)]
      omega⟩

/-- The `fetchComments` comparator (PostList.tsx lines 211-218): score
descending, ties broken by createdAt ascending (oldest first). -/
def commentCmp (a b : CommentRec) : Int :=
  if a.score ≠ b.score then b.score - a.score else a.createdAt - b.createdAt

/-- `a` sorts no later than `b` under the `fetchComments` comparator. -/
def commentBefore (a b : CommentRec) : Prop := commentCmp a b ≤ 0

instance : DecidableRel commentBefore :=
  fun a b => inferInstanceAs (Decidable (commentCmp a b ≤ 0))

instance : IsTotal CommentRec commentBefore :=
  ⟨fun a b => by
    unfold commentBefore commentCmp
    rcases eq_or_ne a.score b.score with h | h
    · rw [if_neg (by simp [h]), if_neg (by simp [h.symm])]
      omega
    · rw [if_pos h, if_pos (Ne.symm h)]
      omega⟩

instance : IsTrans CommentRec commentBefore :=
  ⟨fun a b c h1 h2 => by
    unfold commentBefore commentCmp at h1 h2 ⊢
    by_cases hab : a.score = b.score <;> by_cases hbc : b.score = c.score
    · rw [if_neg (by simp [hab])] at h1
      rw [if_neg (by simp [hbc])] at h2
      rw [if_neg (by simp [hab, hbc])]
      omega
    · rw [if_neg (by simp [hab])] at h1
      rw [if_pos hbc] at h2
      rw [if_pos (hab ▸ hbc)]
      omega
    · rw [if_pos hab] at h1
      rw [if_neg (by simp [hbc])] at h2
      rw [if_pos (hbc ▸ hab)]
      omega
    · rw [if_pos hab] at h1
      rw [if_pos hbc] at h2
      rw [if_pos (by intro h; omega)]
      omega⟩

/-- The scope argument of `fetchPosts` (PostList.tsx lines 88-94):
`channelId` wins over `locationId`, otherwise the feed is global. -/
inductive FeedScope
  | byChannel (channelId : Nat)
  | byLocation (locationId : Nat)
  | global

/-- The list filter built by `fetchPosts`: `isActive` plus the scope. -/
def feedFilter (sc : FeedScope) (p : PostRec) : Bool :=
  p.isActive && (match sc with
    | FeedScope.byChannel cid => decide (p.channelId = cid)
    | FeedScope.byLocation lid => decide (p.locationId = lid)
    | FeedScope.global => true)

/-- The ordering logic of `fetchPosts` (PostList.tsx lines 84-174): filter
the posts by scope and activity, then sort by the comparator. -/
def fetchPostsOrder (sc : FeedScope) (posts : List PostRec) : List PostRec :=
  List.insertionSort postBefore (posts.filter (feedFilter sc))

/-- The list filter built by `fetchComments`: same post, `isActive`. -/
def commentFilter (postId : Nat) (c : CommentRec) : Bool :=
  decide (c.postId = postId) && c.isActive

/-- The ordering logic of `fetchComments` (PostList.tsx lines 176-225):
filter the comments of the post, then sort by the comparator.  The result
is a flat list: `parentCommentId` is never consulted. -/
def fetchCommentsOrder (postId : Nat) (comments : List CommentRec) :
    List CommentRec :=
  List.insertionSort commentBefore (comments.filter (commentFilter postId))

/-- A necessary condition for a depth-first comment-tree ordering: no
comment appears before the parent it points to. -/
def parentsBefore : List CommentRec → Bool
  | [] => true
  | c :: rest =>
    (match c.parentCommentId with
     | none => true
     | some pid => !(rest.any (fun d => decide (d.id = pid)))) &&
    parentsBefore rest

/-- A root comment with a low score, for the ordering counterexamples. -/
def rootC : CommentRec :=
  { id := 31, postId := 6, authorId := 1, parentCommentId := none,
    content := [], isActive := true, upvotes := 0, downvotes := 0,
    score := 0, createdAt := 1 }

/-- A reply to `rootC` with a higher score. -/
def childC : CommentRec :=
  { id := 32, postId := 6, authorId := 2, parentCommentId := some 31,
    content := [], isActive := true, upvotes := 5, downvotes := 0,
    score := 5, createdAt := 2 }

/-- First half of a two-comment `parentCommentId` cycle. -/
def cycA : CommentRec :=
  { id := 41, postId := 7, authorId := 1, parentCommentId := some 42,
    content := [], isActive := true, upvotes := 0, downvotes := 0,
    score := 0, createdAt := 1 }

/-- Second half of a two-comment `parentCommentId` cycle. -/
def cycB : CommentRec :=
  { id := 42, postId := 7, authorId := 2, parentCommentId := some 41,
    content := [], isActive := true, upvotes := 0, downvotes := 0,
    score := 0, createdAt := 2 }

/-- An older comment in a score tie. -/
def tieOld : CommentRec :=
  { id := 21, postId := 5, authorId := 1, parentCommentId := none,
    content := [], isActive := true, upvotes := 1, downvotes := 0,
    score := 1, createdAt := 10 }

/-- A newer comment in a score tie. -/
def tieNew : CommentRec :=
  { id := 22, postId := 5, authorId := 2, parentCommentId := none,
    content := [], isActive := true, upvotes := 1, downvotes := 0,
    score := 1, createdAt := 20 }

/-- The form state of CreatePost.tsx (fields used by the model). -/
structure PostForm where
  title : List Char
  content : List Char
  linkUrl : List Char
  linkTitle : List Char
  linkDescription : List Char
deriving DecidableEq

/-- `handleSubmit` of CreatePost.tsx lines 126-199: validate the title,
the type-specific field, the selected channel and the location, then
create the Post with upvotes, downvotes, score and commentCount all 0.
No other row is written — in particular the containing Channel (and its
postCount) is untouched. -/
def createPost (form : PostForm) (ptype : NewPostType)
    (selectedChannel : Option Nat) (locationData : Option LocationRec)
    (userId newId : Nat) (now : Int) (st : Store) :
    Except CreateError Store :=
  if jsTrim form.title = [] then Except.error CreateError.TitleRequired
  else if decide (ptype = NewPostType.text) && decide (jsTrim form.content = []) then
    Except.error CreateError.ContentRequired
  else if decide (ptype = NewPostType.link) && decide (jsTrim form.linkUrl = []) then
    Except.error CreateError.LinkUrlRequired
  else
    match selectedChannel with
    | none => Except.error CreateError.ChannelRequired
    | some channelId =>
      match locationData with
      | none => Except.error CreateError.LocationMissing
      | some location =>
        Except.ok { st with posts := st.posts ++
          [{ id := newId, locationId := location.id, channelId := channelId,
             authorId := userId, title := jsTrim form.title,
             ptype := ptype.toPostType,
             content := if ptype = NewPostType.text
               then some (jsTrim form.content) else none,
             linkUrl := if ptype = NewPostType.link
               then some (jsTrim form.linkUrl) else none,
             isActive := true, upvotes := 0, downvotes := 0, score := 0,
             commentCount := 0, createdAt := now }] }

/-- `handleCommentSubmit` of PostList.tsx lines 240-260: when a user is
signed in and the text is nonblank, create a Comment on the post.  The
create call passes postId, authorId, content and timestamps only: no
`parentCommentId` is ever supplied, and no other row (in particular the
Post and its commentCount) is touched. -/
def handleCommentSubmit (postId : Nat) (user : Option Nat)
    (newComment : List Char) (newId : Nat) (now : Int) (st : Store) : Store :=
  match user with
  | none => st
  | some userId =>
    if jsTrim newComment = [] then st
    else { st with comments := st.comments ++
      [{ id := newId, postId := postId, authorId := userId,
         parentCommentId := none, content := jsTrim newComment,
         isActive := true, upvotes := 0, downvotes := 0, score := 0,
         createdAt := now }] }

/-- A channel with its denormalized postCount at its creation value 0. -/
def generalChannel : ChannelRec :=
  { id := 2, locationId := 1, name := "general".data, slug := "general".data,
    isActive := true, memberCount := 0, postCount := 0, createdBy := 4 }

/-- Store for the counter-drift scenario: one location, one channel. -/
def c7Store : Store :=
  { locations := [annArbor], channels := [generalChannel], posts := [],
    comments := [] }

/-- Post form of the counter-drift scenario. -/
def postForm7 : PostForm :=
  { title := "Welcome".data, content := "Hello".data, linkUrl := [],
    linkTitle := [], linkDescription := [] }

/-- The Post row `createPost` writes in the counter-drift scenario. -/
def c7Post : PostRec :=
  { id := 11, locationId := 1, channelId := 2, authorId := 9,
    title := "Welcome".data, ptype := PostType.text,
    content := some "Hello".data, linkUrl := none, isActive := true,
    upvotes := 0, downvotes := 0, score := 0, commentCount := 0,
    createdAt := 100 }

/-- The store after the post creation of the counter-drift scenario. -/
def c7Store1 : Store := { c7Store with posts := [c7Post] }

/-- The Comment row `handleCommentSubmit` writes in the scenario. -/
def c7Comment : CommentRec :=
  { id := 12, postId := 11, authorId := 9, parentCommentId := none,
    content := "hi".data, isActive := true, upvotes := 0, downvotes := 0,
    score := 0, createdAt := 101 }

/-- The store after the comment creation of the counter-drift scenario. -/
def c7Store2 : Store := { c7Store1 with comments := [c7Comment] }

/-- One request to the comment-submission interface. -/
structure CommentReq where
  postId : Nat
  user : Option Nat
  text : List Char
  newId : Nat
  now : Int
deriving DecidableEq

/-- A sequence of comment submissions applied through the interface. -/
def applyCommentReqs (st : Store) (reqs : List CommentReq) : Store :=
  reqs.foldl
    (fun s r => handleCommentSubmit r.postId r.user r.text r.newId r.now s) st

/-- Look a comment up by id. -/
def findComment (cs : List CommentRec) (i : Nat) : Option CommentRec :=
  cs.find? (fun c => decide (c.id = i))

/-- Walk the `parentCommentId` chain with fuel; exhausting fuel means the
chain is longer than the comment set, i.e. revisits an ancestor. -/
def hasCycleFrom (cs : List CommentRec) : Nat → CommentRec → Bool
  | 0, _ => true
  | fuel + 1, c =>
    match c.parentCommentId with
    | none => false
    | some pid =>
      match findComment cs pid with
      | none => false
      | some p => hasCycleFrom cs fuel p

/-- The comment set contains a `parentCommentId` cycle reachable from one
of its members. -/
def hasCycle (cs : List CommentRec) : Bool :=
  cs.any (fun c => hasCycleFrom cs cs.length c)

/-- Demo submissions: signed-in, guest, blank-text, signed-in. -/
def demoReqs : List CommentReq :=
  [{ postId := 11, user := some 9, text := "hi".data, newId := 12, now := 101 },
   { postId := 11, user := none, text := "x".data, newId := 13, now := 102 },
   { postId := 11, user := some 9, text := "  ".data, newId := 14, now := 103 },
   { postId := 11, user := some 4, text := "yo".data, newId := 15, now := 104 }]

/-- The Vote `type` enum of the Amplify schema. -/
inductive VoteType
  | upvote
  | downvote
deriving DecidableEq

/-- A vote target: exactly one of a Post or a Comment (the spec's tagged
union reading of the schema's postId XOR commentId). -/
inductive TargetRef
  | post (id : Nat)
  | comment (id : Nat)
deriving DecidableEq

/-- A Vote row. -/
structure VoteRow where
  userId : Nat
  target : TargetRef
  vtype : VoteType
deriving DecidableEq

/-- A votable row (Post or Comment) with its vote counters. -/
structure TargetRow where
  ref : TargetRef
  upvotes : Nat
  downvotes : Nat
  score : Int
  isActive : Bool
deriving DecidableEq

/-- The store slice touched by the Score Aggregator. -/
structure VoteState where
  targets : List TargetRow
  votes : List VoteRow
deriving DecidableEq

/-- The Score Aggregator's error kind. -/
inductive VoteError
  | TargetNotFound
deriving DecidableEq

/-- Increment the counter of `ty` and recompute the score. -/
def bumpTarget (t : TargetRow) (ty : VoteType) : TargetRow :=
  match ty with
  | VoteType.upvote =>
    { t with
      upvotes := t.upvotes + 1
      score := ((t.upvotes + 1 : Nat) : Int) - t.downvotes }
  | VoteType.downvote =>
    { t with
      downvotes := t.downvotes + 1
      score := (t.upvotes : Int) - ((t.downvotes + 1 : Nat) : Int) }

/-- Flip a vote on `t` to `newTy`: decrement the counter of the old type,
increment the counter of `newTy`, recompute the score. -/
def flipTarget (t : TargetRow) (newTy : VoteType) : TargetRow :=
  match newTy with
  | VoteType.upvote =>
    { t with
      upvotes := t.upvotes + 1
      downvotes := t.downvotes - 1
      score := ((t.upvotes + 1 : Nat) : Int) - ((t.downvotes - 1 : Nat) : Int) }
  | VoteType.downvote =>
    { t with
      upvotes := t.upvotes - 1
      downvotes := t.downvotes + 1
      score := ((t.upvotes - 1 : Nat) : Int) - ((t.downvotes + 1 : Nat) : Int) }

/-- The Vote row for user `u` on target `tr`. -/
def voteKey (u : Nat) (tr : TargetRef) (v : VoteRow) : Bool :=
  decide (v.userId = u) && decide (v.target = tr)

/-- Update the matching Vote row's type in place. -/
def flipRow (u : Nat) (tr : TargetRef) (ty : VoteType) (w : VoteRow) : VoteRow :=
  if voteKey u tr w then { w with vtype := ty } else w

/-- The state written by a first vote: insert the Vote row and bump the
target's counter. -/
def insertVoteState (u : Nat) (tr : TargetRef) (ty : VoteType)
    (st : VoteState) : VoteState :=
  { targets := st.targets.map (fun s => if s.ref = tr then bumpTarget s ty else s),
    votes := st.votes ++ [{ userId := u, target := tr, vtype := ty }] }

/-- The state written by a vote flip: move one count from the old type to
the new one and update the Vote row in place — a single atomic write. -/
def flipVoteState (u : Nat) (tr : TargetRef) (ty : VoteType)
    (st : VoteState) : VoteState :=
  { targets := st.targets.map (fun s => if s.ref = tr then flipTarget s ty else s),
    votes := st.votes.map (flipRow u tr ty) }

/-- Modelled from the spec: `castVote` (section 4.2) is not implemented in
the repository — only the Vote model is declared in the Amplify schema —
so the operation is taken from the spec's words.  If the target is
missing or inactive, fail with `TargetNotFound`.  If the user has no
prior Vote on the target, insert the Vote, increment the matching counter
and recompute the score.  If a prior Vote has a different type, flip it
atomically: decrement the old counter, increment the new one, recompute
the score, and update the Vote row's type in place.  A repeated identical
vote is an idempotent no-op. -/
def castVote (u : Nat) (tr : TargetRef) (ty : VoteType) (st : VoteState) :
    Except VoteError VoteState :=
  match st.targets.find? (fun t => decide (t.ref = tr)) with
  | none => Except.error VoteError.TargetNotFound
  | some t =>
    if !t.isActive then Except.error VoteError.TargetNotFound
    else
      match st.votes.find? (voteKey u tr) with
      | none => Except.ok (insertVoteState u tr ty st)
      | some v =>
        if v.vtype = ty then Except.ok st
        else Except.ok (flipVoteState u tr ty st)

/-- Number of recorded votes of type `ty` on target `tr`. -/
def countVotes (votes : List VoteRow) (tr : TargetRef) (ty : VoteType) : Nat :=
  (votes.filter (fun v => decide (v.target = tr) && decide (v.vtype = ty))).length

/-- All Vote rows of user `u` on target `tr`. -/
def votesFor (votes : List VoteRow) (u : Nat) (tr : TargetRef) : List VoteRow :=
  votes.filter (voteKey u tr)

/-- Counter consistency: each target's stored counters equal the live
counts of its recorded votes and the score is their difference. -/
def CountersOk (st : VoteState) : Prop :=
  ∀ t ∈ st.targets,
    t.upvotes = countVotes st.votes t.ref VoteType.upvote ∧
    t.downvotes = countVotes st.votes t.ref VoteType.downvote ∧
    t.score = (t.upvotes : Int) - (t.downvotes : Int)

/-- At most one Vote row per (user, target) pair. -/
def KeyUnique (votes : List VoteRow) : Prop :=
  List.Pairwise (fun v w => ¬(v.userId = w.userId ∧ v.target = w.target)) votes

/-- The Score Aggregator's state invariant. -/
def VoteInv (st : VoteState) : Prop := CountersOk st ∧ KeyUnique st.votes

instance (st : VoteState) : Decidable (CountersOk st) :=
  inferInstanceAs (Decidable (∀ t ∈ st.targets,
    t.upvotes = countVotes st.votes t.ref VoteType.upvote ∧
    t.downvotes = countVotes st.votes t.ref VoteType.downvote ∧
    t.score = (t.upvotes : Int) - (t.downvotes : Int)))

instance (votes : List VoteRow) : Decidable (KeyUnique votes) :=
  inferInstanceAs (Decidable (List.Pairwise
    (fun (v w : VoteRow) => ¬(v.userId = w.userId ∧ v.target = w.target)) votes))

instance (st : VoteState) : Decidable (VoteInv st) :=
  inferInstanceAs (Decidable (CountersOk st ∧ KeyUnique st.votes))

/-- One vote-cast request. -/
structure VoteOp where
  userId : Nat
  target : TargetRef
  vtype : VoteType
deriving DecidableEq

/-- Apply a sequence of vote casts; a failed cast leaves the state as is. -/
def applyVotes (st : VoteState) (ops : List VoteOp) : VoteState :=
  ops.foldl (fun s op =>
    match castVote op.userId op.target op.vtype s with
    | Except.ok s2 => s2
    | Except.error _ => s) st

/-- A fresh post target with zeroed counters. -/
def demoVoteState : VoteState :=
  { targets := [{ ref := TargetRef.post 1, upvotes := 0, downvotes := 0,
                  score := 0, isActive := true }],
    votes := [] }

/-- The state after user 9 upvotes post 1 in `demoVoteState`. -/
def demoVoteState1 : VoteState :=
  { targets := [{ ref := TargetRef.post 1, upvotes := 1, downvotes := 0,
                  score := 1, isActive := true }],
    votes := [{ userId := 9, target := TargetRef.post 1,
                vtype := VoteType.upvote }] }

/-- The spec's section 8 scenario 7: an upvote then a downvote by the
same user on the same post. -/
def demoVoteOps : List VoteOp :=
  [{ userId := 9, target := TargetRef.post 1, vtype := VoteType.upvote },
   { userId := 9, target := TargetRef.post 1, vtype := VoteType.downvote }]

theorem mem_collapseRunsAux {p : Char → Bool} {r : Char} :
    ∀ (b : Bool) (l : List Char) (c : Char), c ∈ collapseRunsAux p r b l →
      c = r ∨ (c ∈ l ∧ p c = false)
  | _, [], c, h => by simp [collapseRunsAux] at h
  | b, a :: as, c, h => by
    rw [collapseRunsAux] at h
    by_cases hpa : p a
    · rw [if_pos hpa] at h
      cases b with
      | true =>
        rcases mem_collapseRunsAux true as c (by simpa using h) with h2 | ⟨hmem, hps⟩
        · exact Or.inl h2
        · exact Or.inr ⟨List.mem_cons_of_mem a hmem, hps⟩
      | false =>
        rcases List.mem_cons.mp (by simpa using h) with h1 | h1
        · exact Or.inl h1
        · rcases mem_collapseRunsAux true as c h1 with h2 | ⟨hmem, hps⟩
          · exact Or.inl h2
          · exact Or.inr ⟨List.mem_cons_of_mem a hmem, hps⟩
    · rw [if_neg hpa] at h
      rcases List.mem_cons.mp h with h1 | h1
      · subst h1
        exact Or.inr ⟨List.mem_cons_self _ _, by simpa using hpa⟩
      · rcases mem_collapseRunsAux false as c h1 with h2 | ⟨hmem, hps⟩
        · exact Or.inl h2
        · exact Or.inr ⟨List.mem_cons_of_mem a hmem, hps⟩

theorem mem_collapseRuns {p : Char → Bool} {r : Char} (l : List Char) (c : Char)
    (h : c ∈ collapseRuns p r l) : c = r ∨ (c ∈ l ∧ p c = false) :=
  mem_collapseRunsAux false l c h

theorem dropWhile_eq_self_of_all {p : Char → Bool} :
    ∀ {l : List Char}, (∀ c ∈ l, p c = false) → l.dropWhile p = l
  | [], _ => rfl
  | a :: as, h => by
    rw [List.dropWhile_cons, h a (List.mem_cons_self _ _)]
    simp

theorem jsTrim_eq_self_of_no_ws {l : List Char}
    (h : ∀ c ∈ l, jsWhitespace c = false) : jsTrim l = l := by
  unfold jsTrim
  rw [dropWhile_eq_self_of_all h, dropWhile_eq_self_of_all
    (fun c hc => h c (List.mem_reverse.mp hc)), List.reverse_reverse]

theorem no_ws_slugUntrimmed (name : List Char) :
    ∀ c ∈ slugUntrimmed name, jsWhitespace c = false := by
  intro c hc
  rcases mem_collapseRuns _ _ hc with h | ⟨hmem, _⟩
  · subst h; decide
  · rcases mem_collapseRuns _ _ hmem with h' | ⟨_, hws⟩
    · subst h'; decide
    · exact hws

theorem generateSlug_eq_slugUntrimmed (name : List Char) :
    generateSlug name = slugUntrimmed name :=
  jsTrim_eq_self_of_no_ws (no_ws_slugUntrimmed name)

theorem noAdj_nil {p : Char → Bool} : noAdj p [] = true := rfl

theorem noAdj_single {p : Char → Bool} {a : Char} : noAdj p [a] = true := rfl

theorem noAdj_cons_cons {p : Char → Bool} {a b : Char} {t : List Char} :
    noAdj p (a :: b :: t) = ((!(p a && p b)) && noAdj p (b :: t)) := rfl

theorem noAdj_cons_of_head {p : Char → Bool} {a : Char} {t : List Char}
    (ht : noAdj p t = true)
    (hh : ∀ d ds, t = d :: ds → (p a = false ∨ p d = false)) :
    noAdj p (a :: t) = true := by
  cases t with
  | nil => rfl
  | cons d ds =>
    rw [noAdj_cons_cons, Bool.and_eq_true]
    refine ⟨?_, ht⟩
    rcases hh d ds rfl with h | h <;> simp [h]

theorem noAdj_collapseRunsAux (p : Char → Bool) (r : Char) :
    ∀ l : List Char,
      noAdj p (collapseRunsAux p r true l) = true ∧
      noAdj p (collapseRunsAux p r false l) = true ∧
      (∀ d ds, collapseRunsAux p r true l = d :: ds → p d = false) := by
  intro l
  induction l with
  | nil => exact ⟨rfl, rfl, fun d ds h => by simp [collapseRunsAux] at h⟩
  | cons a as ih =>
    rcases ih with ⟨ihT, ihF, ihHead⟩
    by_cases hpa : p a
    · have eT : collapseRunsAux p r true (a :: as) = collapseRunsAux p r true as := by
        rw [collapseRunsAux, if_pos hpa, if_pos rfl]
      have eF : collapseRunsAux p r false (a :: as) = r :: collapseRunsAux p r true as := by
        rw [collapseRunsAux, if_pos hpa]
        simp
      refine ⟨eT ▸ ihT, ?_, fun d ds h => ihHead d ds (eT ▸ h)⟩
      rw [eF]
      exact noAdj_cons_of_head ihT (fun d ds h => Or.inr (ihHead d ds h))
    · have hpa' : p a = false := by simpa using hpa
      have eT : collapseRunsAux p r true (a :: as) = a :: collapseRunsAux p r false as := by
        rw [collapseRunsAux, if_neg hpa]
      have eF : collapseRunsAux p r false (a :: as) = a :: collapseRunsAux p r false as := by
        rw [collapseRunsAux, if_neg hpa]
      refine ⟨?_, ?_, fun d ds h => by
        rw [eT] at h
        cases h
        exact hpa'⟩
      · rw [eT]
        exact noAdj_cons_of_head ihF (fun d ds _ => Or.inl hpa')
      · rw [eF]
        exact noAdj_cons_of_head ihF (fun d ds _ => Or.inl hpa')

theorem noAdj_collapseRuns (p : Char → Bool) (r : Char) (l : List Char) :
    noAdj p (collapseRuns p r l) = true :=
  (noAdj_collapseRunsAux p r l).2.1

theorem slugChar_slugUntrimmed (name : List Char) :
    ∀ c ∈ slugUntrimmed name, slugChar c = true := by
  intro c hc
  rcases mem_collapseRuns _ _ hc with h | ⟨hmem, hhy⟩
  · subst h; decide
  · rcases mem_collapseRuns _ _ hmem with h' | ⟨hmem', hws⟩
    · subst h'; decide
    · have hkeep : slugKeep c = true := (List.mem_filter.mp hmem').2
      unfold slugKeep at hkeep
      unfold slugChar
      rw [hws] at hkeep
      simpa using hkeep

theorem filter_length_pos_iff {α : Type} {p : α → Bool} {l : List α} :
    (0 < (l.filter p).length) ↔ ∃ x ∈ l, p x = true := by
  rw [List.length_pos_iff_exists_mem]
  constructor
  · rintro ⟨a, ha⟩
    exact ⟨a, (List.mem_filter.mp ha).1, (List.mem_filter.mp ha).2⟩
  · rintro ⟨x, hx, hpx⟩
    exact ⟨x, List.mem_filter.mpr ⟨hx, hpx⟩⟩

/-- C3: the slug transformation of `generateSlug` (CreateCity.tsx 30-37,
CreateChannel.tsx 75-82) is lowercase, strip characters outside
`[a-z0-9\s-]`, collapse whitespace runs to a single hyphen, collapse
repeated hyphens — but the final `trim()` strips only whitespace, of
which none remains, so it is a no-op: contrary to the claim, leading and
trailing hyphens are never removed.  The amended claim: `generateSlug`
equals the pipeline with no trimming step at all. -/
theorem generateSlug_is_untrimmed_pipeline (name : List Char) :
    generateSlug name = slugUntrimmed name := by
  rw [generateSlug_eq_slugUntrimmed]

/-- C3 counterexample: on the name `" hi "` the code produces `"-hi-"`,
while the claimed transformation (trimming leading/trailing hyphens,
formalised by `slugSpec`) produces `"hi"`. -/
theorem generateSlug_trim_cex :
    generateSlug " hi ".data = "-hi-".data ∧
    slugSpec " hi ".data = "hi".data ∧
    generateSlug " hi ".data ≠ slugSpec " hi ".data := by
  refine ⟨by decide, by decide, by decide⟩

/-- C9: every character of a generated slug is a lowercase ASCII letter, a
digit, or a hyphen — never whitespace, never uppercase — and no two
consecutive characters are both hyphens. -/
theorem generateSlug_char_shape (name : List Char) :
    (generateSlug name).all slugChar = true ∧
    noAdj (fun c => c = '-') (generateSlug name) = true := by
  rw [generateSlug_eq_slugUntrimmed]
  constructor
  · exact List.all_eq_true.mpr (slugChar_slugUntrimmed name)
  · exact noAdj_collapseRuns _ _ _

theorem filter_eq_nil_of_none {α : Type} {p : α → Bool} {l : List α}
    (h : ∀ x ∈ l, ¬ p x = true) : ¬ 0 < (l.filter p).length := by
  intro hpos
  rcases filter_length_pos_iff.mp hpos with ⟨x, hx, hpx⟩
  exact h x hx hpx

/-- C4: a creation request whose generated slug collides fails with
`DuplicateSlug` and creates nothing (the result is an error carrying no
row): for a Location the scope is global, for a Channel it is the parent
Location; a Channel whose slug exists only under a different Location is
created successfully. -/
theorem slug_uniqueness_scope (st : Store) (cform : CityForm)
    (chform : ChannelForm) (loc : LocationRec) (userId newCityId newChId : Nat) :
    ((∃ l ∈ st.locations, l.slug = generateSlug cform.name) →
      jsTrim cform.name ≠ [] → jsTrim cform.state ≠ [] →
      createCity cform newCityId st = Except.error CreateError.DuplicateSlug) ∧
    ((∃ c ∈ st.channels, c.slug = generateSlug chform.name ∧ c.locationId = loc.id) →
      jsTrim chform.name ≠ [] →
      createChannel chform (some loc) userId newChId st =
        Except.error CreateError.DuplicateSlug) ∧
    ((∀ c ∈ st.channels, c.locationId = loc.id → c.slug ≠ generateSlug chform.name) →
      jsTrim chform.name ≠ [] →
      createChannel chform (some loc) userId newChId st = Except.ok
        { st with channels := st.channels ++
          [{ id := newChId, locationId := loc.id, name := jsTrim chform.name,
             slug := generateSlug chform.name, isActive := true,
             memberCount := 0, postCount := 0, createdBy := userId }] }) := by
  refine ⟨?_, ?_, ?_⟩
  · rintro ⟨l, hl, hslug⟩ hname hstate
    unfold createCity
    rw [if_neg hname, if_neg hstate, if_pos]
    exact filter_length_pos_iff.mpr ⟨l, hl, decide_eq_true hslug⟩
  · rintro ⟨c, hc, hslug, hloc⟩ hname
    unfold createChannel
    rw [if_neg hname]
    simp only
    rw [if_pos]
    exact filter_length_pos_iff.mpr
      ⟨c, hc, by rw [Bool.and_eq_true, decide_eq_true_iff, decide_eq_true_iff]; exact ⟨hslug, hloc⟩⟩
  · intro hfree hname
    unfold createChannel
    rw [if_neg hname]
    simp only
    rw [if_neg]
    apply filter_eq_nil_of_none
    intro c hc hp
    rw [Bool.and_eq_true, decide_eq_true_iff, decide_eq_true_iff] at hp
    exact hfree c hc hp.2 hp.1

/-- C4 witness: §8 scenario — creating a second "Ann Arbor" city fails,
creating a second "Politics" channel under Ann Arbor fails, and creating
"Politics" under Chicago succeeds with slug "politics". -/
theorem slug_uniqueness_scope_witness :
    createCity annArborForm 5 scenarioStore =
      Except.error CreateError.DuplicateSlug ∧
    createChannel politicsForm (some annArbor) 9 7 scenarioStore =
      Except.error CreateError.DuplicateSlug ∧
    createChannel politicsForm (some chicago) 9 7 scenarioStore = Except.ok
      { scenarioStore with channels := scenarioStore.channels ++
        [{ id := 7, locationId := chicago.id, name := jsTrim politicsForm.name,
           slug := generateSlug politicsForm.name, isActive := true,
           memberCount := 0, postCount := 0, createdBy := 9 }] } :=
  ⟨(slug_uniqueness_scope scenarioStore annArborForm politicsForm annArbor 9 5 7).1
      ⟨annArbor, by decide, by decide⟩ (by decide) (by decide),
   (slug_uniqueness_scope scenarioStore annArborForm politicsForm annArbor 9 5 7).2.1
      ⟨politicsChannel, by decide, by decide, by decide⟩ (by decide),
   (slug_uniqueness_scope scenarioStore annArborForm politicsForm chicago 9 5 7).2.2
      (by decide) (by decide)⟩

/-- C6 counterexample: the all-punctuation name `"!!!"` passes validation
(only blank names are rejected), generates the empty slug, and the
Location is created with an empty-string slug — there is no `InvalidName`
failure. -/
theorem empty_slug_created_cex :
    generateSlug bangForm.name = [] ∧
    createCity bangForm 1 emptyStore = Except.ok
      { emptyStore with locations :=
        [{ id := 1, name := "!!!".data, slug := [], state := "CA".data,
           country := "United States".data, isActive := true }] } :=
  ⟨by decide, by decide⟩

/-- C6 amended: no empty-slug validation exists.  A nonblank name whose
generated slug is empty passes both checks, and when no existing Location
carries the empty slug the Location is created with `slug = ""`. -/
theorem createCity_empty_slug (form : CityForm) (newId : Nat) (st : Store)
    (hname : jsTrim form.name ≠ []) (hstate : jsTrim form.state ≠ [])
    (hslug : generateSlug form.name = [])
    (hnon : ∀ l ∈ st.locations, l.slug ≠ []) :
    createCity form newId st = Except.ok { st with locations := st.locations ++
      [{ id := newId, name := jsTrim form.name, slug := [],
         state := jsTrim form.state, country := jsTrim form.country,
         isActive := true }] } := by
  unfold createCity
  rw [if_neg hname, if_neg hstate, if_neg, hslug]
  apply filter_eq_nil_of_none
  intro l hl hp
  rw [decide_eq_true_iff, hslug] at hp
  exact hnon l hl hp

/-- C6 amended witness: the `"!!!"` form on the empty store. -/
theorem createCity_empty_slug_witness :
    createCity bangForm 1 emptyStore = Except.ok
      { emptyStore with locations := emptyStore.locations ++
        [{ id := 1, name := jsTrim bangForm.name, slug := [],
           state := jsTrim bangForm.state, country := jsTrim bangForm.country,
           isActive := true }] } :=
  createCity_empty_slug bangForm 1 emptyStore (by decide) (by decide)
    (by decide) (by decide)

theorem postBefore_iff {a b : PostRec} :
    postBefore a b ↔
      (b.score < a.score ∨ (a.score = b.score ∧ b.createdAt ≤ a.createdAt)) := by
  unfold postBefore postCmp
  rcases eq_or_ne a.score b.score with h | h
  · rw [if_neg (by simp [h])]
    constructor
    · intro hle
      exact Or.inr ⟨h, by omega⟩
    · rintro (hlt | ⟨_, hle⟩) <;> omega
  · rw [if_pos h]
    constructor
    · intro hle
      left
      rcases lt_or_eq_of_le (by omega : b.score ≤ a.score) with hlt | heq
      · exact hlt
      · exact absurd heq.symm h
    · rintro (hlt | ⟨heq, _⟩)
      · omega
      · exact absurd heq h

theorem commentBefore_iff {a b : CommentRec} :
    commentBefore a b ↔
      (b.score < a.score ∨ (a.score = b.score ∧ a.createdAt ≤ b.createdAt)) := by
  unfold commentBefore commentCmp
  rcases eq_or_ne a.score b.score with h | h
  · rw [if_neg (by simp [h])]
    constructor
    · intro hle
      exact Or.inr ⟨h, by omega⟩
    · rintro (hlt | ⟨_, hle⟩) <;> omega
  · rw [if_pos h]
    constructor
    · intro hle
      left
      rcases lt_or_eq_of_le (by omega : b.score ≤ a.score) with hlt | heq
      · exact hlt
      · exact absurd heq.symm h
    · rintro (hlt | ⟨heq, _⟩)
      · omega
      · exact absurd heq h

/-- C2: the feed returned by `fetchPosts` is the active posts of the
requested scope, ordered by score descending with ties broken by
createdAt descending — among equal scores the later-created post appears
first. -/
theorem fetchPosts_ordering (sc : FeedScope) (posts : List PostRec) :
    List.Pairwise (fun a b => b.score < a.score ∨
      (a.score = b.score ∧ b.createdAt ≤ a.createdAt))
      (fetchPostsOrder sc posts) ∧
    List.Perm (fetchPostsOrder sc posts) (posts.filter (feedFilter sc)) := by
  constructor
  · exact (List.sorted_insertionSort postBefore
      (posts.filter (feedFilter sc))).imp (fun h => postBefore_iff.mp h)
  · exact List.perm_insertionSort postBefore _

/-- C5 counterexample: two comments with equal score — the code orders the
OLDER one first (createdAt ascending), so the claimed newest-first
ordering is violated on this input. -/
theorem fetchComments_tiebreak_cex :
    fetchCommentsOrder 5 [tieOld, tieNew] = [tieOld, tieNew] ∧
    tieOld.score = tieNew.score ∧
    tieOld.createdAt < tieNew.createdAt ∧
    ¬ List.Pairwise (fun a b => b.score < a.score ∨
        (a.score = b.score ∧ b.createdAt ≤ a.createdAt))
      (fetchCommentsOrder 5 [tieOld, tieNew]) :=
  ⟨by decide, by decide, by decide, by decide⟩

/-- C5 amended: `fetchComments` sorts sibling comments by score
descending, but ties are broken by createdAt ASCENDING — the oldest
comment of a score tie appears first, unlike the post feed. -/
theorem fetchComments_ordering (postId : Nat) (comments : List CommentRec) :
    List.Pairwise (fun a b => b.score < a.score ∨
      (a.score = b.score ∧ a.createdAt ≤ b.createdAt))
      (fetchCommentsOrder postId comments) :=
  (List.sorted_insertionSort commentBefore
    (comments.filter (commentFilter postId))).imp
    (fun h => commentBefore_iff.mp h)

/-- C8 counterexample: `fetchComments` builds no tree.  On a cycle-free
set it can place a child before the parent it points to (so the output is
not a depth-first ordering with ancestor-chain depths), and on a cyclic
set it completes normally with a flat list instead of failing with
`CycleDetected`. -/
theorem fetchComments_tree_cex :
    childC.parentCommentId = some rootC.id ∧
    fetchCommentsOrder 6 [rootC, childC] = [childC, rootC] ∧
    parentsBefore (fetchCommentsOrder 6 [rootC, childC]) = false ∧
    cycA.parentCommentId = some cycB.id ∧
    cycB.parentCommentId = some cycA.id ∧
    fetchCommentsOrder 7 [cycA, cycB] = [cycA, cycB] :=
  ⟨by decide, by decide, by decide, by decide, by decide, by decide⟩

/-- C8 amended: `fetchComments` is total — for every comment set, cyclic
or not, it returns exactly the active comments of the post as one flat
list (a permutation of the filtered input); `parentCommentId` is ignored
and no cycle detection exists. -/
theorem fetchComments_total (postId : Nat) (comments : List CommentRec) :
    List.Perm (fetchCommentsOrder postId comments)
      (comments.filter (commentFilter postId)) :=
  List.perm_insertionSort commentBefore _

/-- C7 counterexample: after `createPost` the Channel's stored postCount
is still 0 while the live count of its posts is 1, and after
`handleCommentSubmit` the Post's stored commentCount is still 0 while the
live count of its comments is 1 — neither creating mutation updates the
parent counter. -/
theorem counter_drift_cex :
    createPost postForm7 NewPostType.text (some 2) (some annArbor) 9 11 100
      c7Store = Except.ok c7Store1 ∧
    c7Store1.channels.map ChannelRec.postCount = [0] ∧
    (c7Store1.posts.filter (fun p => decide (p.channelId = 2))).length = 1 ∧
    handleCommentSubmit 11 (some 9) "hi".data 12 101 c7Store1 = c7Store2 ∧
    c7Store2.posts.map PostRec.commentCount = [0] ∧
    (c7Store2.comments.filter (fun c => decide (c.postId = 11))).length = 1 :=
  ⟨by decide, by decide, by decide, by decide, by decide, by decide⟩

/-- C7 amended: the creating mutations never touch the parent counters at
all — `createPost` leaves the channels (and comments) of the store
unchanged, and `handleCommentSubmit` leaves the posts (and channels)
unchanged, so the stored postCount / commentCount keep their prior
values rather than tracking live counts. -/
theorem creation_leaves_counters (form : PostForm) (ptype : NewPostType)
    (sel : Option Nat) (locD : Option LocationRec) (userId newId : Nat)
    (now : Int) (st st' : Store) (postId : Nat) (user : Option Nat)
    (text : List Char) (cid : Nat) (cnow : Int) :
    (createPost form ptype sel locD userId newId now st = Except.ok st' →
      st'.channels = st.channels ∧ st'.comments = st.comments) ∧
    ((handleCommentSubmit postId user text cid cnow st).posts = st.posts ∧
     (handleCommentSubmit postId user text cid cnow st).channels = st.channels) := by
  constructor
  · intro h
    unfold createPost at h
    split at h
    · exact Except.noConfusion h
    split at h
    · exact Except.noConfusion h
    split at h
    · exact Except.noConfusion h
    split at h
    · exact Except.noConfusion h
    split at h
    · exact Except.noConfusion h
    injection h with h1
    rw [← h1]
    exact ⟨rfl, rfl⟩
  · cases user with
    | none => exact ⟨rfl, rfl⟩
    | some uid =>
      simp only [handleCommentSubmit]
      by_cases htext : jsTrim text = []
      · rw [if_pos htext]
        exact ⟨rfl, rfl⟩
      · rw [if_neg htext]
        exact ⟨rfl, rfl⟩

/-- C7 amended witness: the counter-drift scenario store. -/
theorem creation_leaves_counters_witness :
    c7Store1.channels = c7Store.channels ∧ c7Store1.comments = c7Store.comments :=
  (creation_leaves_counters postForm7 NewPostType.text (some 2) (some annArbor)
    9 11 100 c7Store c7Store1 11 (some 9) "hi".data 12 101).1 (by decide)

theorem handleCommentSubmit_parent_none (postId : Nat) (user : Option Nat)
    (text : List Char) (cid : Nat) (now : Int) (st : Store)
    (h0 : ∀ c ∈ st.comments, c.parentCommentId = none) :
    ∀ c ∈ (handleCommentSubmit postId user text cid now st).comments,
      c.parentCommentId = none := by
  cases user with
  | none => exact h0
  | some uid =>
    simp only [handleCommentSubmit]
    by_cases htext : jsTrim text = []
    · rw [if_pos htext]
      exact h0
    · rw [if_neg htext]
      intro c hc
      rcases List.mem_append.mp hc with h | h
      · exact h0 c h
      · have := List.mem_singleton.mp h
        subst this
        rfl

theorem hasCycle_eq_false_of_none {cs : List CommentRec}
    (h : ∀ c ∈ cs, c.parentCommentId = none) : hasCycle cs = false := by
  unfold hasCycle
  rw [List.any_eq_false]
  intro c hc
  have hlen : ∃ n, cs.length = n + 1 := by
    cases hcs : cs.length with
    | zero =>
      rw [List.length_eq_zero] at hcs
      subst hcs
      cases hc
    | succ n => exact ⟨n, rfl⟩
  rcases hlen with ⟨n, hn⟩
  rw [hn]
  simp [hasCycleFrom, h c hc]

/-- C10: every comment created through `handleCommentSubmit` is a root
comment — starting from a store whose comments all lack a parent, any
sequence of submissions through this interface yields a comment set with
no parent links and therefore no `parentCommentId` cycle. -/
theorem comment_interface_no_cycles (st : Store) (reqs : List CommentReq)
    (h0 : ∀ c ∈ st.comments, c.parentCommentId = none) :
    (∀ c ∈ (applyCommentReqs st reqs).comments, c.parentCommentId = none) ∧
    hasCycle (applyCommentReqs st reqs).comments = false := by
  have hall : ∀ c ∈ (applyCommentReqs st reqs).comments,
      c.parentCommentId = none := by
    induction reqs generalizing st with
    | nil => exact h0
    | cons r rs ih =>
      unfold applyCommentReqs
      rw [List.foldl_cons]
      exact ih _ (handleCommentSubmit_parent_none _ _ _ _ _ _ h0)
  exact ⟨hall, hasCycle_eq_false_of_none hall⟩

/-- C10 witness: four demo submissions on the empty store. -/
theorem comment_interface_no_cycles_witness :
    hasCycle (applyCommentReqs emptyStore demoReqs).comments = false :=
  (comment_interface_no_cycles emptyStore demoReqs (by decide)).2

theorem voteKey_eq_true {u : Nat} {tr : TargetRef} {v : VoteRow} :
    voteKey u tr v = true ↔ (v.userId = u ∧ v.target = tr) := by
  unfold voteKey
  rw [Bool.and_eq_true, decide_eq_true_iff, decide_eq_true_iff]

theorem map_id_of_eq {α : Type} {f : α → α} :
    ∀ {l : List α}, (∀ x ∈ l, f x = x) → l.map f = l
  | [], _ => rfl
  | a :: as, h => by
    rw [List.map_cons, h a (List.mem_cons_self _ _),
      map_id_of_eq (fun x hx => h x (List.mem_cons_of_mem a hx))]

theorem find?_split {α : Type} {p : α → Bool} :
    ∀ (l : List α) (v : α), l.find? p = some v →
      p v = true ∧ ∃ l1 l2, l = l1 ++ v :: l2 ∧ ∀ x ∈ l1, p x = false
  | [], v, h => by simp [List.find?] at h
  | a :: as, v, h => by
    by_cases hpa : p a
    · rw [List.find?_cons_of_pos _ hpa] at h
      injection h with h1
      subst h1
      exact ⟨hpa, [], as, rfl, by intro x hx; cases hx⟩
    · rw [List.find?_cons_of_neg _ hpa] at h
      rcases find?_split as v h with ⟨hp, l1, l2, heq, hall⟩
      refine ⟨hp, a :: l1, l2, by rw [heq, List.cons_append], ?_⟩
      intro x hx
      rcases List.mem_cons.mp hx with h1 | h1
      · subst h1
        simpa using hpa
      · exact hall x h1

theorem countVotes_append (l1 l2 : List VoteRow) (tr : TargetRef)
    (ty : VoteType) :
    countVotes (l1 ++ l2) tr ty = countVotes l1 tr ty + countVotes l2 tr ty := by
  unfold countVotes
  rw [List.filter_append, List.length_append]

theorem countVotes_cons (w : VoteRow) (ws : List VoteRow) (tr : TargetRef)
    (ty : VoteType) :
    countVotes (w :: ws) tr ty =
      countVotes ws tr ty + (if w.target = tr ∧ w.vtype = ty then 1 else 0) := by
  unfold countVotes
  rw [List.filter_cons]
  by_cases h1 : w.target = tr <;> by_cases h2 : w.vtype = ty <;>
    simp [h1, h2, Nat.add_comm]

theorem countVotes_nil (tr : TargetRef) (ty : VoteType) :
    countVotes [] tr ty = 0 := rfl

theorem votesFor_append (l1 l2 : List VoteRow) (u : Nat) (tr : TargetRef) :
    votesFor (l1 ++ l2) u tr = votesFor l1 u tr ++ votesFor l2 u tr := by
  unfold votesFor
  rw [List.filter_append]

theorem votesFor_nil_of_none {votes : List VoteRow} {u : Nat} {tr : TargetRef}
    (h : ∀ x ∈ votes, voteKey u tr x = false) : votesFor votes u tr = [] := by
  unfold votesFor
  rw [List.filter_eq_nil_iff]
  intro a ha
  simp [h a ha]

theorem votesFor_length_le_one {votes : List VoteRow} (h : KeyUnique votes)
    (u : Nat) (tr : TargetRef) : (votesFor votes u tr).length ≤ 1 := by
  have hp : List.Pairwise
      (fun v w => ¬(v.userId = w.userId ∧ v.target = w.target))
      (votesFor votes u tr) :=
    List.Pairwise.sublist (List.filter_sublist votes) h
  cases hf : votesFor votes u tr with
  | nil => simp
  | cons a t =>
    cases t with
    | nil => simp
    | cons b t2 =>
      exfalso
      rw [hf] at hp
      have hr := (List.pairwise_cons.mp hp).1 b (List.mem_cons_self _ _)
      have ha : a ∈ votesFor votes u tr := by
        rw [hf]; exact List.mem_cons_self _ _
      have hb : b ∈ votesFor votes u tr := by
        rw [hf]; exact List.mem_cons_of_mem _ (List.mem_cons_self _ _)
      have hka := voteKey_eq_true.mp (List.mem_filter.mp ha).2
      have hkb := voteKey_eq_true.mp (List.mem_filter.mp hb).2
      exact hr ⟨hka.1.trans hkb.1.symm, hka.2.trans hkb.2.symm⟩

theorem keyUnique_append_single {votes : List VoteRow} {nv : VoteRow}
    (h : KeyUnique votes)
    (hnone : ∀ x ∈ votes, voteKey nv.userId nv.target x = false) :
    KeyUnique (votes ++ [nv]) := by
  unfold KeyUnique at h ⊢
  rw [List.pairwise_append]
  refine ⟨h, List.pairwise_singleton _ _, ?_⟩
  intro v hv w hw
  rw [List.mem_singleton] at hw
  subst hw
  rintro ⟨h1, h2⟩
  have hx := hnone v hv
  rw [← Bool.not_eq_true, voteKey_eq_true] at hx
  exact hx ⟨h1, h2⟩

theorem flipRow_userId (u : Nat) (tr : TargetRef) (ty : VoteType)
    (w : VoteRow) : (flipRow u tr ty w).userId = w.userId := by
  unfold flipRow
  by_cases h : voteKey u tr w <;> simp [h]

theorem flipRow_target (u : Nat) (tr : TargetRef) (ty : VoteType)
    (w : VoteRow) : (flipRow u tr ty w).target = w.target := by
  unfold flipRow
  by_cases h : voteKey u tr w <;> simp [h]

theorem insert_vote_counts (u : Nat) (tr : TargetRef) (ty : VoteType)
    (votes : List VoteRow) (hku : KeyUnique votes)
    (hfind : votes.find? (voteKey u tr) = none) :
    countVotes (votes ++ [{ userId := u, target := tr, vtype := ty }]) tr ty
      = countVotes votes tr ty + 1 ∧
    (∀ ty2, ty2 ≠ ty →
      countVotes (votes ++ [{ userId := u, target := tr, vtype := ty }]) tr ty2
        = countVotes votes tr ty2) ∧
    (∀ tr2, tr2 ≠ tr → ∀ ty2,
      countVotes (votes ++ [{ userId := u, target := tr, vtype := ty }]) tr2 ty2
        = countVotes votes tr2 ty2) ∧
    KeyUnique (votes ++ [{ userId := u, target := tr, vtype := ty }]) ∧
    (votesFor (votes ++ [{ userId := u, target := tr, vtype := ty }]) u tr).length
      = 1 := by
  have hnone : ∀ x ∈ votes, voteKey u tr x = false := by
    intro x hx
    have hx2 := List.find?_eq_none.mp hfind x hx
    simpa using hx2
  refine ⟨?_, ?_, ?_, ?_, ?_⟩
  · rw [countVotes_append, countVotes_cons, countVotes_nil]
    simp
  · intro ty2 hty2
    rw [countVotes_append, countVotes_cons, countVotes_nil]
    simp [Ne.symm hty2]
  · intro tr2 htr2 ty2
    rw [countVotes_append, countVotes_cons, countVotes_nil]
    simp [Ne.symm htr2]
  · exact keyUnique_append_single hku hnone
  · rw [votesFor_append, votesFor_nil_of_none hnone]
    unfold votesFor
    simp [voteKey]

theorem flip_vote_counts (u : Nat) (tr : TargetRef) (ty : VoteType)
    (votes : List VoteRow) (v : VoteRow) (hku : KeyUnique votes)
    (hfind : votes.find? (voteKey u tr) = some v) (hne : v.vtype ≠ ty) :
    countVotes (votes.map (flipRow u tr ty)) tr ty
      = countVotes votes tr ty + 1 ∧
    countVotes (votes.map (flipRow u tr ty)) tr v.vtype + 1
      = countVotes votes tr v.vtype ∧
    (∀ tr2, tr2 ≠ tr → ∀ ty2,
      countVotes (votes.map (flipRow u tr ty)) tr2 ty2
        = countVotes votes tr2 ty2) ∧
    KeyUnique (votes.map (flipRow u tr ty)) ∧
    (votesFor (votes.map (flipRow u tr ty)) u tr).length = 1 := by
  have hkumap : KeyUnique (votes.map (flipRow u tr ty)) := by
    unfold KeyUnique at hku ⊢
    refine List.Pairwise.map _ ?_ hku
    intro a b hr hab
    rw [flipRow_userId, flipRow_userId, flipRow_target, flipRow_target] at hab
    exact hr hab
  obtain ⟨hkv, l1, l2, heq, hl1⟩ := find?_split votes v hfind
  obtain ⟨hvu, hvt⟩ := voteKey_eq_true.mp hkv
  have hl2 : ∀ x ∈ l2, voteKey u tr x = false := by
    intro x hx
    by_cases hk : voteKey u tr x
    · exfalso
      obtain ⟨hxu, hxt⟩ := voteKey_eq_true.mp hk
      have hpw : List.Pairwise
          (fun a b => ¬(a.userId = b.userId ∧ a.target = b.target))
          (v :: l2) := by
        unfold KeyUnique at hku
        rw [heq, List.pairwise_append] at hku
        exact hku.2.1
      exact (List.pairwise_cons.mp hpw).1 x hx
        ⟨hvu.trans hxu.symm, hvt.trans hxt.symm⟩
    · simpa using hk
  have hmap : votes.map (flipRow u tr ty)
      = l1 ++ { v with vtype := ty } :: l2 := by
    rw [heq, List.map_append, List.map_cons,
      map_id_of_eq (fun x hx => by unfold flipRow; rw [if_neg (by simp [hl1 x hx])]),
      map_id_of_eq (fun x hx => by unfold flipRow; rw [if_neg (by simp [hl2 x hx])])]
    unfold flipRow
    rw [if_pos hkv]
  have hvsplit : countVotes votes tr v.vtype
      = countVotes l1 tr v.vtype + countVotes l2 tr v.vtype + 1 := by
    rw [heq, countVotes_append, countVotes_cons, if_pos ⟨hvt, rfl⟩]
    omega
  have hvsplit2 : countVotes votes tr ty
      = countVotes l1 tr ty + countVotes l2 tr ty := by
    rw [heq, countVotes_append, countVotes_cons,
      if_neg (fun h => hne h.2)]
    omega
  refine ⟨?_, ?_, ?_, hkumap, ?_⟩
  · rw [hmap, countVotes_append, countVotes_cons, if_pos (by exact ⟨hvt, rfl⟩),
      hvsplit2]
    omega
  · rw [hmap, countVotes_append, countVotes_cons,
      if_neg (fun h => hne h.2.symm), hvsplit]
    omega
  · intro tr2 htr2 ty2
    rw [hmap, heq, countVotes_append, countVotes_append, countVotes_cons,
      countVotes_cons, if_neg (fun h => htr2 (hvt ▸ h.1.symm)),
      if_neg (fun h => htr2 (hvt ▸ h.1.symm))]
  · rw [hmap, votesFor_append, votesFor_nil_of_none hl1]
    unfold votesFor
    rw [List.filter_cons, if_pos (by rw [voteKey_eq_true]; exact ⟨hvu, hvt⟩),
      List.filter_eq_nil_iff.mpr (fun x hx => by simp [hl2 x hx])]
    simp

/-- C1: `castVote` preserves the Score Aggregator invariant — every
target's stored counters equal the live counts of its recorded votes with
score their difference, and at most one Vote row exists per
(user, target) — and after a successful cast exactly one Vote row exists
for the casting (user, target) pair; consequently the invariant holds
after each operation of any vote sequence. -/
theorem castVote_score_invariant :
    (∀ (u : Nat) (tr : TargetRef) (ty : VoteType) (st st2 : VoteState),
      VoteInv st → castVote u tr ty st = Except.ok st2 →
      VoteInv st2 ∧ (votesFor st2.votes u tr).length = 1) ∧
    (∀ (st : VoteState) (ops : List VoteOp),
      VoteInv st → VoteInv (applyVotes st ops)) := by
  have step : ∀ (u : Nat) (tr : TargetRef) (ty : VoteType) (st st2 : VoteState),
      VoteInv st → castVote u tr ty st = Except.ok st2 →
      VoteInv st2 ∧ (votesFor st2.votes u tr).length = 1 := by
    intro u tr ty st st2 hinv hok
    obtain ⟨hcnt, hku⟩ := hinv
    unfold castVote at hok
    split at hok
    · exact Except.noConfusion hok
    next t hft =>
      split at hok
      · exact Except.noConfusion hok
      split at hok
      next hfv =>
        injection hok with hok2
        obtain ⟨hc1, hc2, hc3, hc4, hc5⟩ :=
          insert_vote_counts u tr ty st.votes hku hfv
        have hLenLit :
            (votesFor (insertVoteState u tr ty st).votes u tr).length = 1 := hc5
        have hInvLit : VoteInv (insertVoteState u tr ty st) := by
          refine ⟨?_, hc4⟩
          intro t2 ht2
          obtain ⟨s, hs, hmap⟩ := List.mem_map.mp ht2
          obtain ⟨hsu, hsd, hss⟩ := hcnt s hs
          by_cases hsr : s.ref = tr
          · rw [if_pos hsr] at hmap
            subst hmap
            rw [hsr] at hsu hsd
            cases ty with
            | upvote =>
              refine ⟨?_, ?_, rfl⟩
              · show s.upvotes + 1 = countVotes (st.votes ++
                  [{ userId := u, target := tr, vtype := VoteType.upvote }])
                  s.ref VoteType.upvote
                rw [hsr, hc1]
                omega
              · show s.downvotes = countVotes (st.votes ++
                  [{ userId := u, target := tr, vtype := VoteType.upvote }])
                  s.ref VoteType.downvote
                rw [hsr, hc2 VoteType.downvote (by decide)]
                exact hsd
            | downvote =>
              refine ⟨?_, ?_, rfl⟩
              · show s.upvotes = countVotes (st.votes ++
                  [{ userId := u, target := tr, vtype := VoteType.downvote }])
                  s.ref VoteType.upvote
                rw [hsr, hc2 VoteType.upvote (by decide)]
                exact hsu
              · show s.downvotes + 1 = countVotes (st.votes ++
                  [{ userId := u, target := tr, vtype := VoteType.downvote }])
                  s.ref VoteType.downvote
                rw [hsr, hc1]
                omega
          · rw [if_neg hsr] at hmap
            subst hmap
            refine ⟨?_, ?_, hss⟩
            · show s.upvotes = countVotes (st.votes ++
                [{ userId := u, target := tr, vtype := ty }])
                s.ref VoteType.upvote
              rw [hc3 s.ref hsr VoteType.upvote]
              exact hsu
            · show s.downvotes = countVotes (st.votes ++
                [{ userId := u, target := tr, vtype := ty }])
                s.ref VoteType.downvote
              rw [hc3 s.ref hsr VoteType.downvote]
              exact hsd
        exact ⟨hok2 ▸ hInvLit, hok2 ▸ hLenLit⟩
      next v hfv =>
        split at hok
        next hsame =>
          injection hok with hok2
          refine ⟨hok2 ▸ ⟨hcnt, hku⟩, hok2 ▸ ?_⟩
          have hmem : v ∈ votesFor st.votes u tr :=
            List.mem_filter.mpr
              ⟨List.mem_of_find?_eq_some hfv, List.find?_some hfv⟩
          have h1 : 1 ≤ (votesFor st.votes u tr).length :=
            List.length_pos_iff_exists_mem.mpr ⟨v, hmem⟩
          exact Nat.le_antisymm (votesFor_length_le_one hku u tr) h1
        next hsame =>
          injection hok with hok2
          obtain ⟨hc1, hc2, hc3, hc4, hc5⟩ :=
            flip_vote_counts u tr ty st.votes v hku hfv hsame
          have hLenLit :
              (votesFor (flipVoteState u tr ty st).votes u tr).length = 1 := hc5
          have hInvLit : VoteInv (flipVoteState u tr ty st) := by
            refine ⟨?_, hc4⟩
            intro t2 ht2
            obtain ⟨s, hs, hmap⟩ := List.mem_map.mp ht2
            obtain ⟨hsu, hsd, hss⟩ := hcnt s hs
            by_cases hsr : s.ref = tr
            · rw [if_pos hsr] at hmap
              subst hmap
              rw [hsr] at hsu hsd
              cases hty : ty with
              | upvote =>
                rw [hty] at hsame
                have hvd : v.vtype = VoteType.downvote := by
                  cases hvv : v.vtype
                  · exact absurd hvv hsame
                  · rfl
                rw [hty, hvd] at hc2
                rw [hty] at hc1
                refine ⟨?_, ?_, rfl⟩
                · show s.upvotes + 1 = countVotes (st.votes.map
                    (flipRow u tr VoteType.upvote)) s.ref VoteType.upvote
                  rw [hsr, hc1]
                  omega
                · show s.downvotes - 1 = countVotes (st.votes.map
                    (flipRow u tr VoteType.upvote)) s.ref VoteType.downvote
                  rw [hsr]
                  omega
              | downvote =>
                rw [hty] at hsame
                have hvd : v.vtype = VoteType.upvote := by
                  cases hvv : v.vtype
                  · rfl
                  · exact absurd hvv hsame
                rw [hty, hvd] at hc2
                rw [hty] at hc1
                refine ⟨?_, ?_, rfl⟩
                · show s.upvotes - 1 = countVotes (st.votes.map
                    (flipRow u tr VoteType.downvote)) s.ref VoteType.upvote
                  rw [hsr]
                  omega
                · show s.downvotes + 1 = countVotes (st.votes.map
                    (flipRow u tr VoteType.downvote)) s.ref VoteType.downvote
                  rw [hsr, hc1]
                  omega
            · rw [if_neg hsr] at hmap
              subst hmap
              refine ⟨?_, ?_, hss⟩
              · show s.upvotes = countVotes (st.votes.map (flipRow u tr ty))
                  s.ref VoteType.upvote
                rw [hc3 s.ref hsr VoteType.upvote]
                exact hsu
              · show s.downvotes = countVotes (st.votes.map (flipRow u tr ty))
                  s.ref VoteType.downvote
                rw [hc3 s.ref hsr VoteType.downvote]
                exact hsd
          exact ⟨hok2 ▸ hInvLit, hok2 ▸ hLenLit⟩
  refine ⟨step, ?_⟩
  intro st ops hinv
  induction ops generalizing st with
  | nil => exact hinv
  | cons op rest ih =>
    have hone : VoteInv (match castVote op.userId op.target op.vtype st with
        | Except.ok s2 => s2
        | Except.error _ => st) := by
      cases hc : castVote op.userId op.target op.vtype st with
      | ok s2 => exact (step _ _ _ _ _ hinv hc).1
      | error e => exact hinv
    exact ih _ hone

/-- C1 witness: the spec's section 8 scenario 7 — an upvote then a
downvote by the same user leaves the invariant intact, with one Vote row
and counters (0, 1, -1). -/
theorem castVote_score_invariant_witness :
    (VoteInv demoVoteState1 ∧
      (votesFor demoVoteState1.votes 9 (TargetRef.post 1)).length = 1) ∧
    VoteInv (applyVotes demoVoteState demoVoteOps) :=
  ⟨castVote_score_invariant.1 9 (TargetRef.post 1) VoteType.upvote
      demoVoteState demoVoteState1 (by decide) (by decide),
   castVote_score_invariant.2 demoVoteState demoVoteOps (by decide)⟩

end RedDoor
